import Mathlib

/-!
# VerdeMuse conversation subsystem — shallow embedding

A shallow embedding of the conversation-management subsystem of the
VerdeMuse chatbot: the Redis-backed `ConversationStore`
(`src/infrastructure/conversation_store.py`), the in-process response
cache and the chat endpoints (`src/api/routes/chat.py`).

Modelling conventions:
* Python dicts (the response cache, the Redis key space) are association
  lists with overwrite-on-insert semantics, matching dict assignment.
* JSON serialization of a message list / metadata record is a bijection
  on the values the store ever writes, so the Redis value is modelled as
  the typed value itself (`RVal`), not its string image.
* Every `try/except` around a Redis call is modelled by an explicit
  fault parameter: `true` / a `SaveFault` constructor means the
  underlying client call raised, and the function returns what the
  `except` branch returns.
* `datetime.now().isoformat()` is a `now : String` parameter.
* TTL expiry is modelled as absence of the key: an expired key reads
  exactly like a never-written one.
-/

namespace VerdeMuse

/-- Association-list lookup, i.e. Python `d.get(k)`. -/
def assocGet {α : Type} (l : List (String × α)) (k : String) : Option α :=
  match l with
  | [] => none
  | (k', v) :: t => if k' = k then some v else assocGet t k

/-- Association-list insert with overwrite, i.e. Python `d[k] = v`. -/
def assocSet {α : Type} (l : List (String × α)) (k : String) (v : α) :
    List (String × α) :=
  match l with
  | [] => [(k, v)]
  | (k', v') :: t => if k' = k then (k, v) :: t else (k', v') :: assocSet t k v

/-- Association-list removal, i.e. Python `del d[k]` / Redis `DELETE k`. -/
def assocDel {α : Type} (l : List (String × α)) (k : String) :
    List (String × α) :=
  match l with
  | [] => []
  | (k', v') :: t => if k' = k then assocDel t k else (k', v') :: assocDel t k

/-- A chat message as the store handles it: a dict with `role`,
`content` and an optional `timestamp` entry
(`add_message` fills `timestamp` in when the caller omitted it). -/
structure Message where
  role : String
  content : String
  timestamp : Option String
deriving DecidableEq, Repr

/-- The metadata record `save_conversation` writes under the metadata
key: `{conversation_id, message_count, last_updated, ttl}`. -/
structure Metadata where
  conversation_id : String
  message_count : Nat
  last_updated : String
  ttl : Nat
deriving DecidableEq, Repr

/-- A value stored in Redis by the conversation store: either a JSON
array of messages (under `conversation:{id}`) or a JSON metadata object
(under `conversation_meta:{id}`). -/
inductive RVal
  | conv (msgs : List Message)
  | meta (m : Metadata)
deriving DecidableEq, Repr

/-- The Redis key space: key ↦ (value, remaining ttl as set by
`setex`). Expired keys are simply absent. -/
abbrev RedisState := List (String × (RVal × Nat))

/-- `redis_client.get` of a live key. -/
def rget (s : RedisState) (k : String) : Option RVal :=
  (assocGet s k).map Prod.fst

/-- `redis_client.setex(key, ttl, data)`. -/
def rsetex (s : RedisState) (k : String) (v : RVal) (ttl : Nat) : RedisState :=
  assocSet s k (v, ttl)

/-- `redis_client.delete(key)` (deleting an absent key is a no-op). -/
def rdel (s : RedisState) (k : String) : RedisState :=
  assocDel s k

namespace ConversationStore

/-- `self.default_ttl = 3600`. -/
def default_ttl : Nat := 3600

/-- `_get_conversation_key`: `f"conversation:{conversation_id}"`. -/
def conversationKey (conversation_id : String) : String :=
  "conversation:" ++ conversation_id

/-- `_get_metadata_key`: `f"conversation_meta:{conversation_id}"`. -/
def metadataKey (conversation_id : String) : String :=
  "conversation_meta:" ++ conversation_id

/-- `get_conversation`: returns the decoded list under the conversation
key; `[]` when the key is absent (unknown/expired) and `[]` when the
Redis call raised (`fault = true`, the `except` branch). -/
def get_conversation (fault : Bool) (s : RedisState)
    (conversation_id : String) : List Message :=
  if fault then []
  else
    match rget s (conversationKey conversation_id) with
    | some (RVal.conv msgs) => msgs
    | some (RVal.meta _) => []   -- unreachable for store-produced states
    | none => []

/-- Which of the two `setex` calls inside `save_conversation` raised:
none, the first (conversation data), or the second (metadata) — the two
writes are independent cache operations with no transaction. -/
inductive SaveFault
  | noFault
  | failData
  | failMeta
deriving DecidableEq, Repr

/-- `ttl = ttl or self.default_ttl`: Python truthiness, so an explicit
`0` also falls back to the default. -/
def resolveTtl (ttl : Option Nat) : Nat :=
  match ttl with
  | some t => if t = 0 then default_ttl else t
  | none => default_ttl

/-- `save_conversation`: serializes the full message list under the
conversation key, then writes the derived metadata record under the
metadata key, both with `setex ttl`; returns `True` on success and
`False` (from the `except` branch) when either write raised. -/
def save_conversation (f : SaveFault) (now : String) (s : RedisState)
    (conversation_id : String) (messages : List Message)
    (ttl : Option Nat) : Bool × RedisState :=
  let t := resolveTtl ttl
  match f with
  | SaveFault.failData => (false, s)
  | SaveFault.failMeta =>
      (false, rsetex s (conversationKey conversation_id)
        (RVal.conv messages) t)
  | SaveFault.noFault =>
      let s1 := rsetex s (conversationKey conversation_id)
        (RVal.conv messages) t
      let s2 := rsetex s1 (metadataKey conversation_id)
        (RVal.meta ⟨conversation_id, messages.length, now, t⟩) t
      (true, s2)

/-- `if "timestamp" not in message: message["timestamp"] = datetime.now().isoformat()`. -/
def withTimestamp (now : String) (m : Message) : Message :=
  match m.timestamp with
  | none => { m with timestamp := some now }
  | some _ => m

/-- `add_message`: read-modify-write — fetch the current list, stamp the
message if it lacks a timestamp, append, save the whole list. `gf` is
the fault of the inner `get_conversation`'s Redis call, `sf` that of the
save's writes. -/
def add_message (gf : Bool) (sf : SaveFault) (now : String)
    (s : RedisState) (conversation_id : String) (message : Message)
    (ttl : Option Nat) : Bool × RedisState :=
  let messages := get_conversation gf s conversation_id
  let m := withTimestamp now message
  save_conversation sf now s conversation_id (messages ++ [m]) ttl

/-- `delete_conversation`: deletes both keys and returns `True`
unconditionally when the Redis call did not raise — including when the
keys never existed; `False` only from the `except` branch. -/
def delete_conversation (fault : Bool) (s : RedisState)
    (conversation_id : String) : Bool × RedisState :=
  if fault then (false, s)
  else
    (true,
      rdel (rdel s (conversationKey conversation_id))
        (metadataKey conversation_id))

/-- `get_conversation_metadata`: decoded metadata record, or the empty
dict (`none` here) when absent/expired or when the Redis call raised. -/
def get_conversation_metadata (fault : Bool) (s : RedisState)
    (conversation_id : String) : Option Metadata :=
  if fault then none
  else
    match rget s (metadataKey conversation_id) with
    | some (RVal.meta m) => some m
    | _ => none

end ConversationStore

/-!
## Response cache (`src/api/routes/chat.py`)

The working cache is the plain dict stored as the function attribute
`set_cached_llm_response.cache`; the `@lru_cache(maxsize=1000)`-decorated
`get_cached_llm_response` always returns `None` and is never consulted
by the endpoint. The dict has no capacity bound and no eviction.
-/

/-- The `set_cached_llm_response.cache` dict: cache key ↦ response. -/
abbrev RespCache := List (String × String)

/-- `cache_key = f"{message_hash}:{context_hash}"`. -/
def cacheKey (message_hash context_hash : String) : String :=
  message_hash ++ ":" ++ context_hash

/-- `set_cached_llm_response`: `cache[cache_key] = response`. -/
def set_cached_llm_response (c : RespCache)
    (message_hash context_hash response : String) : RespCache :=
  assocSet c (cacheKey message_hash context_hash) response

/-- `get_llm_response_from_cache`: `cache.get(cache_key)`. -/
def get_llm_response_from_cache (c : RespCache)
    (message_hash context_hash : String) : Option String :=
  assocGet c (cacheKey message_hash context_hash)

/-!
## Chat endpoints (`src/api/routes/chat.py`)
-/

/-- Body of `POST /api/chat/` (`ChatRequest` in `message.py`). -/
structure ChatRequest where
  message : String
  conversation_id : Option String
  user_id : Option String
deriving DecidableEq, Repr

/-- One element of the response's `sources` list. The code attaches a
fixed `confidence` literal `0.9` to every source (a float constant, not
modelled further). -/
structure Source where
  content : String
deriving DecidableEq, Repr

/-- The endpoint's collaborators and nondeterministic inputs for one
turn: the minted uuid, the two insertion timestamps, the md5 hex digest
function, the vector-store query outcome (`page_content` of the top-3
hits, or the raised exception), and the two Mistral client calls. -/
structure ChatEnv where
  newId : String
  now1 : String
  now2 : String
  md5 : String → String
  search : Except Unit (List String)
  generate_answer_with_context : String → List String → List Message → String
  generate_response : String → List Message → String

/-- Faults of the individual Redis calls the turn makes: the initial
history read, then the inner read and the writes of each of the two
`add_message` calls. -/
structure StoreFaults where
  getHist : Bool
  getAdd1 : Bool
  saveAdd1 : ConversationStore.SaveFault
  getAdd2 : Bool
  saveAdd2 : ConversationStore.SaveFault
deriving DecidableEq, Repr

/-- A fully healthy Redis: no call raises. -/
def StoreFaults.noFaults : StoreFaults :=
  ⟨false, false, ConversationStore.SaveFault.noFault,
    false, ConversationStore.SaveFault.noFault⟩

/-- Observable steps of one turn, in execution order, used to state
ordering properties of the endpoint. -/
inductive Event
  | loadHistory
  | persistUser
  | retrieval
  | cacheLookup
  | llmCall
  | persistAssistant
deriving DecidableEq, Repr

/-- Everything a completed turn produced: the `ChatResponse` fields, the
updated cache and store, whether the completion service was called, and
the event trace. -/
structure ChatResult where
  message : String
  conversation_id : String
  sources : Option (List Source)
  llmCalled : Bool
  trace : List Event
  cache : RespCache
  store : RedisState

/-- `conversation_id = request.conversation_id or str(uuid.uuid4())`:
Python `or`, so a missing id and an empty-string id both mint a fresh
one. -/
def resolveConversationId (env : ChatEnv) (req : ChatRequest) : String :=
  match req.conversation_id with
  | some c => if c = "" then env.newId else c
  | none => env.newId

/-- The `relevant_documents` the try/except retrieval block leaves
behind: the hits' `page_content`, or `[]` when the search raised. -/
def retrievedDocs (env : ChatEnv) : List String :=
  match env.search with
  | Except.ok docs => docs
  | Except.error _ => []

/-- The `context_hash` the retrieval block leaves behind: the digest of
the newline-joined passages when any were retrieved, else the
`"no_context"` sentinel (also on a raised search). -/
def contextHash (env : ChatEnv) : String :=
  match env.search with
  | Except.ok docs =>
      if docs ≠ [] then env.md5 (String.intercalate "\n" docs)
      else "no_context"
  | Except.error _ => "no_context"

/-- `chat_endpoint` (`POST /api/chat/`), the non-raising executions:
resolve the conversation id, load history, persist the user message,
attempt retrieval (degrading to no context on error), look up the
response cache (`if cached_response:` — a `None` and an empty-string
value are both treated as a miss), on miss generate with or without
context and store the result in the cache, persist the assistant
message, and return the `ChatResponse`. -/
def chat_endpoint (env : ChatEnv) (flt : StoreFaults)
    (cache : RespCache) (s : RedisState) (req : ChatRequest) : ChatResult :=
  let conversation_id := resolveConversationId env req
  let conversation_history :=
    ConversationStore.get_conversation flt.getHist s conversation_id
  let message_hash := env.md5 req.message
  let user_message : Message := ⟨"user", req.message, none⟩
  let s1 := (ConversationStore.add_message flt.getAdd1 flt.saveAdd1
    env.now1 s conversation_id user_message none).2
  let relevant_documents := retrievedDocs env
  let context_hash := contextHash env
  let cached_response := get_llm_response_from_cache cache message_hash context_hash
  let truthyHit : Bool :=
    match cached_response with
    | some v => v != ""
    | none => false
  let missStep :=
    let respSrc :=
      if relevant_documents ≠ [] then
        (env.generate_answer_with_context req.message relevant_documents
          conversation_history,
         some (relevant_documents.map Source.mk))
      else
        (env.generate_response req.message conversation_history,
         (none : Option (List Source)))
    (respSrc.1, respSrc.2,
      set_cached_llm_response cache message_hash context_hash respSrc.1, true)
  let step :=
    if truthyHit then
      (cached_response.getD "", (none : Option (List Source)), cache, false)
    else missStep
  let assistant_response := step.1
  let sources := step.2.1
  let cache2 := step.2.2.1
  let llmCalled := step.2.2.2
  let assistant_message : Message := ⟨"assistant", assistant_response, none⟩
  let s2 := (ConversationStore.add_message flt.getAdd2 flt.saveAdd2
    env.now2 s1 conversation_id assistant_message none).2
  { message := assistant_response
    conversation_id := conversation_id
    sources := if relevant_documents ≠ [] then sources else none
    llmCalled := llmCalled
    trace := [Event.loadHistory, Event.persistUser, Event.retrieval,
        Event.cacheLookup]
      ++ (if llmCalled then [Event.llmCall] else [])
      ++ [Event.persistAssistant]
    cache := cache2
    store := s2 }

/-- Outcome of one of the auxiliary endpoints: a JSON body or an
`HTTPException` status code. -/
inductive EndpointResult (α : Type)
  | ok (body : α)
  | httpError (code : Nat)
deriving DecidableEq, Repr

/-- `DELETE /api/chat/{conversation_id}`: calls the store's
`delete_conversation` and raises 404 exactly when it returned `False`;
otherwise returns `{"status": "success", "message": "Conversation deleted"}`. -/
def delete_conversation_endpoint (fault : Bool) (s : RedisState)
    (conversation_id : String) :
    EndpointResult (String × String) × RedisState :=
  let r := ConversationStore.delete_conversation fault s conversation_id
  if r.1 then (EndpointResult.ok ("success", "Conversation deleted"), r.2)
  else (EndpointResult.httpError 404, r.2)

/-!
## Basic association-list laws
-/

theorem assocGet_assocSet_self {α : Type} (l : List (String × α))
    (k : String) (v : α) : assocGet (assocSet l k v) k = some v := by
  induction l with
  | nil => simp [assocGet, assocSet]
  | cons hd t ih =>
      by_cases h : hd.1 = k
      · simp [assocSet, assocGet, h]
      · simp only [assocSet, assocGet]
        rw [if_neg h, assocGet, if_neg h]
        exact ih

theorem assocGet_assocSet_ne {α : Type} (l : List (String × α))
    (k k' : String) (v : α) (h : k' ≠ k) :
    assocGet (assocSet l k v) k' = assocGet l k' := by
  induction l with
  | nil =>
      simp only [assocGet, assocSet]
      rw [if_neg (fun e => h (Eq.symm e))]
  | cons hd t ih =>
      by_cases hk : hd.1 = k
      · simp only [assocSet]
        rw [if_pos hk, assocGet, assocGet, if_neg (fun e => h e.symm), hk,
          if_neg (fun e => h e.symm)]
      · simp only [assocSet]
        rw [if_neg hk, assocGet, assocGet]
        by_cases hk' : hd.1 = k'
        · rw [if_pos hk', if_pos hk']
        · rw [if_neg hk', if_neg hk']
          exact ih

theorem length_assocSet_of_fresh {α : Type} (l : List (String × α))
    (k : String) (v : α) (h : assocGet l k = none) :
    (assocSet l k v).length = l.length + 1 := by
  induction l with
  | nil => simp [assocSet]
  | cons hd t ih =>
      by_cases hk : hd.1 = k
      · rw [assocGet, if_pos hk] at h
        exact absurd h (by simp)
      · rw [assocGet, if_neg hk] at h
        simp only [assocSet]
        rw [if_neg hk]
        simp [ih h]

/-!
## Key-space facts: the two key namespaces are disjoint and injective
-/

theorem conversationKey_inj (a b : String)
    (h : ConversationStore.conversationKey a = ConversationStore.conversationKey b) :
    a = b := by
  have h2 : ("conversation:" ++ a).data = ("conversation:" ++ b).data :=
    congrArg String.data h
  simp [String.data_append] at h2
  exact String.ext h2

theorem conversationKey_ne_metadataKey (a b : String) :
    ConversationStore.conversationKey a ≠ ConversationStore.metadataKey b := by
  intro h
  have h2 : ("conversation:" ++ a).data = ("conversation_meta:" ++ b).data :=
    congrArg String.data h
  simp [String.data_append] at h2

/-!
## Store-level laws
-/

/-- A fault-free save succeeds. -/
theorem save_noFault_succeeds (now : String) (s : RedisState) (cid : String)
    (msgs : List Message) (ttl : Option Nat) :
    (ConversationStore.save_conversation ConversationStore.SaveFault.noFault
      now s cid msgs ttl).1 = true := rfl

/-- Reading straight after a fault-free save yields the saved list: the
metadata write lands under the disjoint metadata key and cannot shadow
the conversation key. -/
theorem get_after_save (now : String) (s : RedisState) (cid : String)
    (msgs : List Message) (ttl : Option Nat) :
    ConversationStore.get_conversation false
      (ConversationStore.save_conversation ConversationStore.SaveFault.noFault
        now s cid msgs ttl).2 cid = msgs := by
  simp only [ConversationStore.save_conversation, ConversationStore.get_conversation,
    rget, rsetex, if_neg]
  rw [assocGet_assocSet_ne _ _ _ _ (conversationKey_ne_metadataKey cid cid),
    assocGet_assocSet_self]
  rfl

/-- A fault-free save leaves every other conversation's history
untouched. -/
theorem get_after_save_frame (now : String) (s : RedisState) (cid c : String)
    (msgs : List Message) (ttl : Option Nat) (hc : c ≠ cid) :
    ConversationStore.get_conversation false
      (ConversationStore.save_conversation ConversationStore.SaveFault.noFault
        now s cid msgs ttl).2 c =
      ConversationStore.get_conversation false s c := by
  simp only [ConversationStore.save_conversation, ConversationStore.get_conversation,
    rget, rsetex, if_neg]
  rw [assocGet_assocSet_ne _ _ _ _ (conversationKey_ne_metadataKey c cid),
    assocGet_assocSet_ne _ _ _ _ (fun e => hc (conversationKey_inj c cid e))]

/-- The metadata record a fault-free save writes. -/
theorem metadata_after_save (now : String) (s : RedisState) (cid : String)
    (msgs : List Message) (ttl : Option Nat) :
    ConversationStore.get_conversation_metadata false
      (ConversationStore.save_conversation ConversationStore.SaveFault.noFault
        now s cid msgs ttl).2 cid =
      some ⟨cid, msgs.length, now, ConversationStore.resolveTtl ttl⟩ := by
  simp only [ConversationStore.save_conversation,
    ConversationStore.get_conversation_metadata, rget, rsetex, if_neg]
  rw [assocGet_assocSet_self]
  rfl

/-- Effect of a single fault-free `add_message` on every conversation's
readable history: appends the stamped message to the target, leaves the
rest unchanged. -/
theorem get_after_add (now : String) (s : RedisState) (cid c : String)
    (m : Message) :
    ConversationStore.get_conversation false
      (ConversationStore.add_message false ConversationStore.SaveFault.noFault
        now s cid m none).2 c =
      if c = cid then
        ConversationStore.get_conversation false s cid ++
          [ConversationStore.withTimestamp now m]
      else ConversationStore.get_conversation false s c := by
  by_cases hc : c = cid
  · subst hc
    rw [if_pos rfl]
    exact get_after_save now s c _ none
  · rw [if_neg hc]
    exact get_after_save_frame now s cid c _ none hc

/-- Metadata after a single fault-free `add_message`: count is the old
history length plus one. -/
theorem metadata_after_add (now : String) (s : RedisState) (cid : String)
    (m : Message) :
    ConversationStore.get_conversation_metadata false
      (ConversationStore.add_message false ConversationStore.SaveFault.noFault
        now s cid m none).2 cid =
      some ⟨cid, (ConversationStore.get_conversation false s cid).length + 1,
        now, ConversationStore.default_ttl⟩ := by
  have h := metadata_after_save now s cid
    (ConversationStore.get_conversation false s cid ++
      [ConversationStore.withTimestamp now m]) none
  simpa [ConversationStore.add_message, ConversationStore.resolveTtl] using h

/-!
## Claim theorems: conversation store
-/

/-- C8: a successful `save_conversation` followed immediately by
`get_conversation` (no intervening expiry or write) returns exactly the
list that was saved. -/
theorem save_then_get_roundtrip (now : String) (s : RedisState) (cid : String)
    (msgs : List Message) (ttl : Option Nat) :
    (ConversationStore.save_conversation ConversationStore.SaveFault.noFault
        now s cid msgs ttl).1 = true ∧
    ConversationStore.get_conversation false
      (ConversationStore.save_conversation ConversationStore.SaveFault.noFault
        now s cid msgs ttl).2 cid = msgs :=
  ⟨save_noFault_succeeds now s cid msgs ttl, get_after_save now s cid msgs ttl⟩

/-- C3: after every `save_conversation` that returns success, the
metadata record stored for that conversation satisfies
`message_count = messages.length` for the saved list. -/
theorem save_metadata_message_count (f : ConversationStore.SaveFault)
    (now : String) (s : RedisState) (cid : String) (msgs : List Message)
    (ttl : Option Nat)
    (h : (ConversationStore.save_conversation f now s cid msgs ttl).1 = true) :
    ∃ md : Metadata,
      ConversationStore.get_conversation_metadata false
        (ConversationStore.save_conversation f now s cid msgs ttl).2 cid =
        some md ∧
      md.message_count = msgs.length := by
  cases f with
  | noFault => exact ⟨_, metadata_after_save now s cid msgs ttl, rfl⟩
  | failData => simp [ConversationStore.save_conversation] at h
  | failMeta => simp [ConversationStore.save_conversation] at h

/-- Witness for C3 at a concrete save. -/
theorem save_metadata_message_count_witness :
    ∃ md : Metadata,
      ConversationStore.get_conversation_metadata false
        (ConversationStore.save_conversation ConversationStore.SaveFault.noFault
          "t0" [] "c1" [⟨"user", "hi", none⟩] none).2 "c1" = some md ∧
      md.message_count = 1 :=
  save_metadata_message_count ConversationStore.SaveFault.noFault "t0" [] "c1"
    [⟨"user", "hi", none⟩] none rfl

/-- C6: `get_conversation` returns `[]` both when the identifier is
unknown/expired (key absent) and when the underlying Redis call raised
(the `except` branch); being a total function of the model, it never
surfaces an error. -/
theorem get_conversation_unknown_or_fault_empty (fault : Bool)
    (s : RedisState) (cid : String)
    (h : fault = true ∨ rget s (ConversationStore.conversationKey cid) = none) :
    ConversationStore.get_conversation fault s cid = [] := by
  cases h with
  | inl hf => subst hf; rfl
  | inr hn =>
      cases fault with
      | true => rfl
      | false => simp [ConversationStore.get_conversation, hn]

/-- Witness for C6: a connectivity fault, and a never-written
identifier, both read as the empty history. -/
theorem get_conversation_unknown_or_fault_empty_witness :
    ConversationStore.get_conversation true [] "x" = [] ∧
    ConversationStore.get_conversation false [] "y" = [] :=
  ⟨get_conversation_unknown_or_fault_empty true [] "x" (Or.inl rfl),
   get_conversation_unknown_or_fault_empty false [] "y" (Or.inr rfl)⟩

/-- C2 counterexample: with a healthy Redis and an identifier that was
never written (empty key space), `DELETE /api/chat/{id}` answers
`{"status": "success", ...}`, not 404 — the store's
`delete_conversation` returns `True` regardless of key existence. -/
theorem delete_unknown_returns_success_cex :
    rget [] (ConversationStore.conversationKey "missing") = none ∧
    (delete_conversation_endpoint false [] "missing").1 =
      EndpointResult.ok ("success", "Conversation deleted") ∧
    (delete_conversation_endpoint false [] "missing").1 ≠
      EndpointResult.httpError 404 := by
  refine ⟨rfl, rfl, ?_⟩
  intro h
  exact EndpointResult.noConfusion h

/-- C2 amended: the DELETE endpoint answers
`{"status": "success", "message": "Conversation deleted"}` for every
identifier — known or unknown — whenever the underlying delete call
does not raise, and 404 exactly when it does raise (the store then
reports failure). -/
theorem delete_endpoint_status (fault : Bool) (s : RedisState)
    (cid : String) :
    (delete_conversation_endpoint fault s cid).1 =
      if fault then EndpointResult.httpError 404
      else EndpointResult.ok ("success", "Conversation deleted") := by
  cases fault <;>
    simp [delete_conversation_endpoint, ConversationStore.delete_conversation]

/-!
## Claim theorems: response cache capacity
-/

/-- A family of pairwise-distinct context digests, used to drive
distinct `(message_hash, context_hash)` pairs into the cache. -/
def ctxDigest (i : Nat) : String := String.mk (List.replicate i 'a')

theorem ctxDigest_inj (i j : Nat) (h : ctxDigest i = ctxDigest j) : i = j := by
  have h2 : List.replicate i 'a' = List.replicate j 'a' :=
    congrArg String.data h
  have h3 := congrArg List.length h2
  simpa using h3

theorem cacheKeyM_inj (c c' : String)
    (h : cacheKey "m" c = cacheKey "m" c') : c = c' := by
  have h2 := congrArg String.data h
  simp [cacheKey, String.data_append] at h2
  exact String.ext h2

/-- The cache contents after `n` stores with the same message hash and
`n` pairwise-distinct context hashes. -/
def cacheAfter (n : Nat) : RespCache :=
  (List.range n).foldl
    (fun c i => set_cached_llm_response c "m" (ctxDigest i) "resp") []

theorem cacheAfter_succ (n : Nat) :
    cacheAfter (n + 1) =
      set_cached_llm_response (cacheAfter n) "m" (ctxDigest n) "resp" := by
  simp [cacheAfter, List.range_succ]

theorem cacheAfter_get (n j : Nat) :
    get_llm_response_from_cache (cacheAfter n) "m" (ctxDigest j) =
      if j < n then some "resp" else none := by
  induction n with
  | zero => simp [cacheAfter, get_llm_response_from_cache, assocGet]
  | succ n ih =>
      rw [cacheAfter_succ]
      unfold get_llm_response_from_cache set_cached_llm_response
      by_cases hj : j = n
      · subst hj
        rw [assocGet_assocSet_self]
        simp
      · rw [assocGet_assocSet_ne _ _ _ _
          (fun e => hj (ctxDigest_inj j n (cacheKeyM_inj _ _ e)))]
        rw [show assocGet (cacheAfter n) (cacheKey "m" (ctxDigest j)) =
          get_llm_response_from_cache (cacheAfter n) "m" (ctxDigest j) from rfl]
        rw [ih]
        by_cases hlt : j < n
        · rw [if_pos hlt, if_pos (by omega)]
        · rw [if_neg hlt, if_neg (by omega)]

theorem cacheAfter_length (n : Nat) : (cacheAfter n).length = n := by
  induction n with
  | zero => rfl
  | succ n ih =>
      rw [cacheAfter_succ]
      unfold set_cached_llm_response
      rw [length_assocSet_of_fresh, ih]
      have h := cacheAfter_get n n
      simpa [get_llm_response_from_cache] using h

/-- C1: the working response cache (the plain dict behind
`set_cached_llm_response`) has no capacity bound and never evicts:
after 1001 stores of distinct `(message_hash, context_hash)` pairs it
holds 1001 entries — above the 1000-entry limit the module advertises
(`@lru_cache(maxsize=1000)`, `cache_limit: 1000` in
`GET /stats/cache`) — and even the first-inserted entry is still
present, so no LRU eviction occurred. -/
theorem response_cache_unbounded :
    (cacheAfter 1001).length = 1001 ∧
    1000 < (cacheAfter 1001).length ∧
    get_llm_response_from_cache (cacheAfter 1001) "m" (ctxDigest 0) =
      some "resp" := by
  refine ⟨cacheAfter_length 1001, ?_, ?_⟩
  · rw [cacheAfter_length]
    exact Nat.lt_succ_self 1000
  · have h := cacheAfter_get 1001 0
    simpa using h

/-!
## Serial `add_message` sequences
-/

/-- One step of a serial, fault-free `add_message` sequence,
accumulating the conjunction of the returned success booleans. -/
def addStep (now : String) (cid : String) (acc : Bool × RedisState)
    (m : Message) : Bool × RedisState :=
  let r := ConversationStore.add_message false
    ConversationStore.SaveFault.noFault now acc.2 cid m none
  (acc.1 && r.1, r.2)

/-- `N` serial fault-free `add_message` calls against one conversation
identifier; the first component records that every call succeeded. -/
def add_messages (now : String) (s : RedisState) (cid : String)
    (msgs : List Message) : Bool × RedisState :=
  msgs.foldl (addStep now cid) (true, s)

theorem foldl_addStep_fst (now : String) (cid : String) (msgs : List Message) :
    ∀ (b : Bool) (s : RedisState),
      (msgs.foldl (addStep now cid) (b, s)).1 = b := by
  induction msgs with
  | nil => intro b s; rfl
  | cons m t ih =>
      intro b s
      rw [List.foldl_cons]
      have h1 : (addStep now cid (b, s) m).1 = b := by
        simp [addStep, ConversationStore.add_message,
          ConversationStore.save_conversation]
      have h2 := ih (addStep now cid (b, s) m).1 (addStep now cid (b, s) m).2
      rw [Prod.mk.eta] at h2
      rw [h2, h1]

theorem foldl_addStep_get (now : String) (cid : String) (msgs : List Message) :
    ∀ (b : Bool) (s : RedisState),
      ConversationStore.get_conversation false
        (msgs.foldl (addStep now cid) (b, s)).2 cid =
        ConversationStore.get_conversation false s cid ++
          msgs.map (ConversationStore.withTimestamp now) := by
  induction msgs with
  | nil => intro b s; simp
  | cons m t ih =>
      intro b s
      rw [List.foldl_cons]
      have h2 := ih (addStep now cid (b, s) m).1 (addStep now cid (b, s) m).2
      rw [Prod.mk.eta] at h2
      rw [h2]
      have h3 : ConversationStore.get_conversation false
          (addStep now cid (b, s) m).2 cid =
          ConversationStore.get_conversation false s cid ++
            [ConversationStore.withTimestamp now m] := by
        have h4 := get_after_add now s cid cid m
        rw [if_pos rfl] at h4
        exact h4
      rw [h3]
      simp

theorem foldl_addStep_metadata (now : String) (cid : String) :
    ∀ (msgs : List Message) (b : Bool) (s : RedisState), msgs ≠ [] →
      ConversationStore.get_conversation_metadata false
        (msgs.foldl (addStep now cid) (b, s)).2 cid =
        some ⟨cid, (ConversationStore.get_conversation false s cid).length +
          msgs.length, now, ConversationStore.default_ttl⟩ := by
  intro msgs
  induction msgs with
  | nil => intro b s h; exact absurd rfl h
  | cons m t ih =>
      intro b s _
      rw [List.foldl_cons]
      by_cases ht : t = []
      · subst ht
        rw [List.foldl_nil]
        have h4 := metadata_after_add now s cid m
        exact h4
      · have h2 := ih (addStep now cid (b, s) m).1 (addStep now cid (b, s) m).2 ht
        rw [Prod.mk.eta] at h2
        rw [h2]
        have h3 : ConversationStore.get_conversation false
            (addStep now cid (b, s) m).2 cid =
            ConversationStore.get_conversation false s cid ++
              [ConversationStore.withTimestamp now m] := by
          have h4 := get_after_add now s cid cid m
          rw [if_pos rfl] at h4
          exact h4
        rw [h3]
        simp [Metadata.mk.injEq, List.length_append]
        omega

/-- C5 amended: for every `N ≥ 1` and every sequence of `N` serial
fault-free `add_message` calls against a conversation identifier whose
stored history is empty, all calls return success, `get_conversation`
afterwards returns exactly those `N` messages in call order (each
stamped at insertion when it lacked a timestamp), and the metadata's
`message_count` is `N`. -/
theorem add_messages_serial_spec (now : String) (s : RedisState)
    (cid : String) (msgs : List Message)
    (h1 : ConversationStore.get_conversation false s cid = [])
    (h2 : msgs ≠ []) :
    (add_messages now s cid msgs).1 = true ∧
    ConversationStore.get_conversation false
      (add_messages now s cid msgs).2 cid =
      msgs.map (ConversationStore.withTimestamp now) ∧
    ∃ md : Metadata,
      ConversationStore.get_conversation_metadata false
        (add_messages now s cid msgs).2 cid = some md ∧
      md.message_count = msgs.length := by
  refine ⟨foldl_addStep_fst now cid msgs true s, ?_, ?_⟩
  · have h := foldl_addStep_get now cid msgs true s
    rw [h1] at h
    simpa [add_messages] using h
  · have h := foldl_addStep_metadata now cid msgs true s h2
    rw [h1] at h
    exact ⟨_, by simpa [add_messages] using h, rfl⟩

/-- Witness for the amended C5 at two concrete serial adds on a fresh
identifier. -/
theorem add_messages_serial_spec_witness :
    (add_messages "t" [] "c" [⟨"user", "a", none⟩, ⟨"assistant", "b", none⟩]).1
      = true ∧
    ConversationStore.get_conversation false
      (add_messages "t" [] "c"
        [⟨"user", "a", none⟩, ⟨"assistant", "b", none⟩]).2 "c" =
      [⟨"user", "a", none⟩, ⟨"assistant", "b", none⟩].map
        (ConversationStore.withTimestamp "t") ∧
    ∃ md : Metadata,
      ConversationStore.get_conversation_metadata false
        (add_messages "t" [] "c"
          [⟨"user", "a", none⟩, ⟨"assistant", "b", none⟩]).2 "c" = some md ∧
      md.message_count =
        [(⟨"user", "a", none⟩ : Message), ⟨"assistant", "b", none⟩].length :=
  add_messages_serial_spec "t" [] "c"
    [⟨"user", "a", none⟩, ⟨"assistant", "b", none⟩] rfl (by simp)

/-- The store after one prior message has been recorded under
conversation `"c"`. -/
def preloadedStateC5 : RedisState :=
  (add_messages "t0" [] "c" [⟨"user", "m0", none⟩]).2

/-- The result of one further successful `add_message` against the
preloaded conversation. -/
def extraAddC5 : Bool × RedisState :=
  ConversationStore.add_message false ConversationStore.SaveFault.noFault
    "t1" preloadedStateC5 "c" ⟨"user", "m1", none⟩ none

/-- C5 counterexample: one serial sequence of `N = 1` successful
`add_message` calls against identifier `"c"` (which already held one
message), after which `get_conversation` returns two messages — not
exactly the `N` that were added — and `message_count` is `2 ≠ 1`; and
for `N = 0` on a fresh identifier the metadata read yields the empty
dict, with no `message_count` field at all. -/
theorem add_messages_serial_cex :
    extraAddC5.1 = true ∧
    ConversationStore.get_conversation false extraAddC5.2 "c" =
      [⟨"user", "m0", some "t0"⟩, ⟨"user", "m1", some "t1"⟩] ∧
    ConversationStore.get_conversation false extraAddC5.2 "c" ≠
      [⟨"user", "m1", some "t1"⟩] ∧
    ConversationStore.get_conversation_metadata false extraAddC5.2 "c" =
      some ⟨"c", 2, "t1", 3600⟩ ∧
    ConversationStore.get_conversation_metadata false [] "c" = none := by
  refine ⟨rfl, ?_, ?_, ?_, rfl⟩ <;> decide

/-!
## Claim theorems: the chat turn
-/

/-- The turn's event trace, as a function of whether the completion
service ended up being called. -/
theorem chat_trace_eq (env : ChatEnv) (flt : StoreFaults) (cache : RespCache)
    (s : RedisState) (req : ChatRequest) :
    (chat_endpoint env flt cache s req).trace =
      [Event.loadHistory, Event.persistUser, Event.retrieval,
          Event.cacheLookup] ++
        (if (chat_endpoint env flt cache s req).llmCalled then [Event.llmCall]
          else []) ++
        [Event.persistAssistant] := rfl

/-- C9: in every turn the user message is persisted strictly after the
history load and strictly before the retrieval attempt and before any
completion-service call (when `llmCall` is absent, its index is the
trace length, larger still). -/
theorem user_persisted_before_retrieval_and_generation (env : ChatEnv)
    (flt : StoreFaults) (cache : RespCache) (s : RedisState)
    (req : ChatRequest) :
    (chat_endpoint env flt cache s req).trace.indexOf Event.persistUser <
      (chat_endpoint env flt cache s req).trace.indexOf Event.retrieval ∧
    (chat_endpoint env flt cache s req).trace.indexOf Event.persistUser <
      (chat_endpoint env flt cache s req).trace.indexOf Event.llmCall ∧
    (chat_endpoint env flt cache s req).trace.indexOf Event.loadHistory <
      (chat_endpoint env flt cache s req).trace.indexOf Event.persistUser := by
  rw [chat_trace_eq]
  cases h : (chat_endpoint env flt cache s req).llmCalled <;> decide

/-- The turn's final store state: two `add_message` calls against the
resolved identifier, user message first, assistant message second. -/
theorem chat_store_eq_noFaults (env : ChatEnv) (cache : RespCache)
    (s : RedisState) (req : ChatRequest) :
    (chat_endpoint env StoreFaults.noFaults cache s req).store =
      (ConversationStore.add_message false ConversationStore.SaveFault.noFault
        env.now2
        (ConversationStore.add_message false ConversationStore.SaveFault.noFault
          env.now1 s (resolveConversationId env req)
          ⟨"user", req.message, none⟩ none).2
        (resolveConversationId env req)
        ⟨"assistant",
          (chat_endpoint env StoreFaults.noFaults cache s req).message,
          none⟩ none).2 := rfl

/-- C10: a fault-free chat turn appends exactly two messages to the
resolved conversation's stored history — the stamped user message then
the stamped assistant message (also when the response came from the
response cache, since both `add_message` calls run unconditionally) —
and leaves the stored history of every other identifier unchanged. -/
theorem chat_turn_history_effect (env : ChatEnv) (cache : RespCache)
    (s : RedisState) (req : ChatRequest) (c : String) :
    ConversationStore.get_conversation false
      (chat_endpoint env StoreFaults.noFaults cache s req).store c =
      if c = resolveConversationId env req then
        ConversationStore.get_conversation false s c ++
          [⟨"user", req.message, some env.now1⟩,
           ⟨"assistant",
             (chat_endpoint env StoreFaults.noFaults cache s req).message,
             some env.now2⟩]
      else ConversationStore.get_conversation false s c := by
  rw [chat_store_eq_noFaults, get_after_add]
  by_cases hc : c = resolveConversationId env req
  · rw [if_pos hc, if_pos hc, hc, get_after_add, if_pos rfl]
    simp [ConversationStore.withTimestamp]
  · rw [if_neg hc, if_neg hc, get_after_add, if_neg hc]

/-- C4 amended: when the cache holds a non-empty value for the turn's
`(message_digest, context_digest)` pair, the returned response text is
that cached value byte-for-byte, the completion service is not called,
the reported sources are `null`, and the cache itself is left
unchanged. (A cached empty string is treated as a miss by
`if cached_response:`.) -/
theorem cache_hit_serves_cached (env : ChatEnv) (flt : StoreFaults)
    (cache : RespCache) (s : RedisState) (req : ChatRequest) (v : String)
    (h : get_llm_response_from_cache cache (env.md5 req.message)
      (contextHash env) = some v)
    (hv : v ≠ "") :
    (chat_endpoint env flt cache s req).message = v ∧
    (chat_endpoint env flt cache s req).llmCalled = false ∧
    (chat_endpoint env flt cache s req).sources = none ∧
    (chat_endpoint env flt cache s req).cache = cache := by
  simp only [chat_endpoint, h]
  simp [bne_iff_ne, hv]

/-- Witness environment for the chat-turn theorems: identity digest
function, no retrieved passages, fixed generator outputs. -/
def plainEnv : ChatEnv :=
  { newId := "id0", now1 := "t1", now2 := "t2", md5 := fun s => s,
    search := Except.ok [],
    generate_answer_with_context := fun _ _ _ => "ctxgen",
    generate_response := fun _ _ => "generated" }

/-- A cache holding the value `"cached"` for the pair the message `"q"`
produces with no retrieved context. -/
def hitCache : RespCache := set_cached_llm_response [] "q" "no_context" "cached"

/-- Witness for the amended C4 at a concrete hit. -/
theorem cache_hit_serves_cached_witness :
    (chat_endpoint plainEnv StoreFaults.noFaults hitCache [] ⟨"q", none, none⟩).message = "cached" ∧
    (chat_endpoint plainEnv StoreFaults.noFaults hitCache [] ⟨"q", none, none⟩).llmCalled = false ∧
    (chat_endpoint plainEnv StoreFaults.noFaults hitCache [] ⟨"q", none, none⟩).sources = none ∧
    (chat_endpoint plainEnv StoreFaults.noFaults hitCache [] ⟨"q", none, none⟩).cache = hitCache :=
  cache_hit_serves_cached plainEnv StoreFaults.noFaults hitCache []
    ⟨"q", none, none⟩ "cached" rfl (by decide)

/-- A cache holding the *empty string* for the pair the message `"q"`
produces with no retrieved context. -/
def emptyHitCache : RespCache := set_cached_llm_response [] "q" "no_context" ""

/-- C4 counterexample: the turn's digest pair is present in the cache
(value `""`), yet `if cached_response:` treats it as a miss — the
completion service is called and the returned text is the freshly
generated `"generated"`, not the cached value. -/
theorem cache_hit_empty_value_cex :
    get_llm_response_from_cache emptyHitCache (plainEnv.md5 "q")
      (contextHash plainEnv) = some "" ∧
    (chat_endpoint plainEnv StoreFaults.noFaults emptyHitCache [] ⟨"q", none, none⟩).llmCalled = true ∧
    (chat_endpoint plainEnv StoreFaults.noFaults emptyHitCache [] ⟨"q", none, none⟩).message = "generated" ∧
    (chat_endpoint plainEnv StoreFaults.noFaults emptyHitCache [] ⟨"q", none, none⟩).message ≠ "" := by
  refine ⟨rfl, rfl, rfl, by decide⟩

/-- C7: when the document-index query raises, the turn still completes
with `sources = null`, the response text being either freshly generated
from the conversation-only prompt or a previously cached value under
the `"no_context"` sentinel; no error reaches the caller. -/
theorem retrieval_error_turn_completes (env : ChatEnv) (flt : StoreFaults)
    (cache : RespCache) (s : RedisState) (req : ChatRequest)
    (h : env.search = Except.error ()) :
    (chat_endpoint env flt cache s req).sources = none ∧
    ((chat_endpoint env flt cache s req).message =
        env.generate_response req.message
          (ConversationStore.get_conversation flt.getHist s
            (resolveConversationId env req)) ∨
      ∃ v, get_llm_response_from_cache cache (env.md5 req.message)
          "no_context" = some v ∧
        (chat_endpoint env flt cache s req).message = v) := by
  have hd : retrievedDocs env = [] := by simp [retrievedDocs, h]
  have hh : contextHash env = "no_context" := by simp [contextHash, h]
  refine ⟨?_, ?_⟩
  · simp only [chat_endpoint, hd, hh]
    simp
  · rcases hc : get_llm_response_from_cache cache (env.md5 req.message)
        "no_context" with _ | v
    · left
      simp only [chat_endpoint, hd, hh, hc]
      simp
    · by_cases hv : v = ""
      · left
        subst hv
        simp only [chat_endpoint, hd, hh, hc]
        simp
      · right
        refine ⟨v, rfl, ?_⟩
        simp only [chat_endpoint, hd, hh, hc]
        simp [bne_iff_ne, hv]

/-- Environment whose document-index query raises. -/
def failingSearchEnv : ChatEnv :=
  { newId := "id0", now1 := "t1", now2 := "t2", md5 := fun s => s,
    search := Except.error (),
    generate_answer_with_context := fun _ _ _ => "ctxgen",
    generate_response := fun _ _ => "generated" }

/-- Witness for C7 at a concrete failing retrieval. -/
theorem retrieval_error_turn_completes_witness :
    (chat_endpoint failingSearchEnv StoreFaults.noFaults [] [] ⟨"q", none, none⟩).sources = none ∧
    ((chat_endpoint failingSearchEnv StoreFaults.noFaults [] [] ⟨"q", none, none⟩).message =
        failingSearchEnv.generate_response "q"
          (ConversationStore.get_conversation false []
            (resolveConversationId failingSearchEnv ⟨"q", none, none⟩)) ∨
      ∃ v, get_llm_response_from_cache [] (failingSearchEnv.md5 "q")
          "no_context" = some v ∧
        (chat_endpoint failingSearchEnv StoreFaults.noFaults [] [] ⟨"q", none, none⟩).message = v) :=
  retrieval_error_turn_completes failingSearchEnv StoreFaults.noFaults [] []
    ⟨"q", none, none⟩ rfl

end VerdeMuse
